import Mathlib

/-!
Shallow embedding of the event-manager kernel from `src/event_manager.c`
(header `include/event_manager.h`) of the c-event-manager repository.

Modelling conventions:
* C pointers (`void*`, callback function pointers, payload pointers, owned
  payload copies) are modelled as `Option Nat`, with `none` standing for
  `NULL`.  Distinct non-null pointers are distinct `some` values; the kernel
  only ever compares callbacks for equality and tests pointers against NULL.
* C `int` fields (`count`, `head`, `tail`) are modelled as `Nat`.  In the C
  code these fields are non-negative in every reachable state (they are
  incremented from 0 and decremented only under a positivity guard), so `Nat`
  is faithful on all states the theorems quantify over.
* The `uint32_t` statistics counters wrap at 2^32; increments and decrements
  are taken modulo `U32` to mirror the machine arithmetic.
* `malloc` is modelled by an oracle argument `alloc : Option Nat` passed to
  `em_publish_async`: `none` means the allocation fails, `some p` means it
  returns pointer `p`.
* The mutex, condition variable, eventfd and debug logging have no visible
  state and are elided; every state-changing operation below is the body of
  the corresponding C function between `lock_manager` and `unlock_manager`,
  together with the work it does outside the lock (dispatching, which only
  reads a snapshot and bumps `events_processed`).
* Callbacks are opaque: `dispatch_event` returns, next to the new manager
  state, the ordered snapshot of active subscribers; the C code invokes the
  callbacks of that snapshot in exactly this order.
-/

/-- Constant `EM_MAX_EVENT_TYPES` from `event_manager.h`. -/
def EM_MAX_EVENT_TYPES : Nat := 64

/-- Constant `EM_MAX_SUBSCRIBERS` from `event_manager.h`. -/
def EM_MAX_SUBSCRIBERS : Nat := 16

/-- Constant `EM_ASYNC_QUEUE_SIZE` from `event_manager.h`. -/
def EM_ASYNC_QUEUE_SIZE : Nat := 32

/-- Constant `EM_PRIORITY_COUNT` from `event_manager.h` (HIGH = 0, NORMAL = 1, LOW = 2). -/
def EM_PRIORITY_COUNT : Nat := 3

/-- The value `2^32`, the modulus of the `uint32_t` statistics counters. -/
def U32 : Nat := 4294967296

/-- The `uint32_t` increment (`x++` on a `uint32_t`). -/
def u32inc (x : Nat) : Nat := (x + 1) % U32

/-- The `uint32_t` decrement (`x--` on a `uint32_t`): wraps from 0 to `U32 - 1`,
otherwise subtracts one. -/
def u32dec (x : Nat) : Nat := if x = 0 then U32 - 1 else x - 1

/-- Error codes `em_error_t` from `event_manager.h`. -/
inductive em_error_t where
  | EM_OK
  | EM_ERR_INVALID_PARAM
  | EM_ERR_NOT_INITIALIZED
  | EM_ERR_ALREADY_INIT
  | EM_ERR_OUT_OF_MEMORY
  | EM_ERR_QUEUE_FULL
  | EM_ERR_QUEUE_EMPTY
  | EM_ERR_MAX_SUBSCRIBERS
  | EM_ERR_NOT_FOUND
  | EM_ERR_MUTEX_FAILED
  deriving DecidableEq, Repr

open em_error_t

/-- Struct `em_event_t`: event descriptor.  `mode`: 0 = sync, 1 = async. -/
structure em_event_t where
  id : Nat
  data : Option Nat
  data_size : Nat
  priority : Nat
  mode : Nat
  deriving DecidableEq, Repr

/-- Struct `em_subscriber_t`: one subscriber slot. -/
structure em_subscriber_t where
  callback : Option Nat
  user_data : Option Nat
  priority : Nat
  active : Bool
  deriving DecidableEq, Repr

/-- Struct `em_subscriber_list_t`: per-event-id subscriber table
(`subscribers` has length `EM_MAX_SUBSCRIBERS` in every reachable state). -/
structure em_subscriber_list_t where
  subscribers : List em_subscriber_t
  count : Nat
  sorted : Bool
  deriving DecidableEq, Repr

/-- Struct `em_queue_node_t`: one slot of a per-priority ring buffer. -/
structure em_queue_node_t where
  event : em_event_t
  data_copy : Option Nat
  used : Bool
  deriving DecidableEq, Repr

/-- Struct `em_priority_queue_t`: fixed-capacity FIFO ring
(`nodes` has length `EM_ASYNC_QUEUE_SIZE` in every reachable state). -/
structure em_priority_queue_t where
  nodes : List em_queue_node_t
  head : Nat
  tail : Nat
  count : Nat
  deriving DecidableEq, Repr

/-- Struct `em_stats_t`: the five `uint32_t` statistics counters. -/
structure em_stats_t where
  events_published : Nat
  events_processed : Nat
  async_queue_current : Nat
  async_queue_max : Nat
  subscribers_total : Nat
  deriving DecidableEq, Repr

/-- The `struct em_manager`: subscriber tables, the three priority queues,
statistics and the event-loop flag. -/
structure em_manager where
  event_subscribers : List em_subscriber_list_t
  async_queues : List em_priority_queue_t
  stats : em_stats_t
  running : Bool
  deriving DecidableEq, Repr

/-- A zeroed subscriber slot, as produced by `calloc` in `em_create`. -/
def emptySubscriber : em_subscriber_t :=
  { callback := none, user_data := none, priority := 0, active := false }

/-- A zeroed queue node, as produced by `calloc` in `em_create`. -/
def emptyNode : em_queue_node_t :=
  { event := { id := 0, data := none, data_size := 0, priority := 0, mode := 0 }
    data_copy := none, used := false }

/-- A freshly initialized per-priority queue. -/
def emptyQueue : em_priority_queue_t :=
  { nodes := List.replicate EM_ASYNC_QUEUE_SIZE emptyNode, head := 0, tail := 0, count := 0 }

/-- A freshly initialized subscriber table. -/
def emptyList : em_subscriber_list_t :=
  { subscribers := List.replicate EM_MAX_SUBSCRIBERS emptySubscriber, count := 0, sorted := true }

/-- Function `em_create` (the successful path): all tables inactive and sorted, all
queues empty, all statistics zero. -/
def em_create : em_manager :=
  { event_subscribers := List.replicate EM_MAX_EVENT_TYPES emptyList
    async_queues := List.replicate EM_PRIORITY_COUNT emptyQueue
    stats := { events_published := 0, events_processed := 0, async_queue_current := 0
               async_queue_max := 0, subscribers_total := 0 }
    running := false }

/-- Function `enqueue_event`: refuse when the ring is full, otherwise write the node at
`tail`, advance `tail` modulo the capacity and bump `count`. -/
def enqueue_event (queue : em_priority_queue_t) (event : em_event_t)
    (data_copy : Option Nat) : em_error_t × em_priority_queue_t :=
  if EM_ASYNC_QUEUE_SIZE ≤ queue.count then
    (EM_ERR_QUEUE_FULL, queue)
  else
    let idx := queue.tail
    (EM_OK,
      { queue with
          nodes := queue.nodes.set idx { event := event, data_copy := data_copy, used := true }
          tail := (queue.tail + 1) % EM_ASYNC_QUEUE_SIZE
          count := queue.count + 1 })

/-- Function `dequeue_event`: refuse when the ring is empty, otherwise read the node at
`head`, blank it, advance `head` modulo the capacity and drop `count`.
The second component is the `(event, data_copy)` pair written through the
out-parameters, `none` on failure. -/
def dequeue_event (queue : em_priority_queue_t) :
    em_error_t × Option (em_event_t × Option Nat) × em_priority_queue_t :=
  if queue.count = 0 then
    (EM_ERR_QUEUE_EMPTY, none, queue)
  else
    let idx := queue.head
    let node := queue.nodes.getD idx emptyNode
    (EM_OK, some (node.event, node.data_copy),
      { queue with
          nodes := queue.nodes.set idx { node with data_copy := none, used := false }
          head := (queue.head + 1) % EM_ASYNC_QUEUE_SIZE
          count := queue.count - 1 })

/-- The duplicate-subscription scan of `em_subscribe`: is there an active slot
with this callback? -/
def hasActiveCallback (callback : Option Nat) (l : List em_subscriber_t) : Bool :=
  l.any fun s => s.active && s.callback == callback

/-- The free-slot scan of `em_subscribe`: populate the first inactive slot,
`none` when every slot is active. -/
def fillFirstFree (callback user_data : Option Nat) (priority : Nat) :
    List em_subscriber_t → Option (List em_subscriber_t)
  | [] => none
  | s :: rest =>
    if !s.active then
      some ({ callback := callback, user_data := user_data
              priority := priority, active := true } :: rest)
    else
      match fillFirstFree callback user_data priority rest with
      | some rest2 => some (s :: rest2)
      | none => none

/-- The removal scan of `em_unsubscribe`: deactivate the first active slot with
this callback (clearing its callback and user pointer), `none` when absent. -/
def removeFirstMatch (callback : Option Nat) :
    List em_subscriber_t → Option (List em_subscriber_t)
  | [] => none
  | s :: rest =>
    if s.active && s.callback == callback then
      some ({ s with callback := none, user_data := none, active := false } :: rest)
    else
      match removeFirstMatch callback rest with
      | some rest2 => some (s :: rest2)
      | none => none

/-- Function `em_subscribe` (body after the NULL-handle check): validate, reject a full
table, treat an existing (event, callback) slot as success, otherwise populate
the first free slot, bump the table count and `subscribers_total`, and clear
the `sorted` flag. -/
def em_subscribe (m : em_manager) (event_id : Nat) (callback : Option Nat)
    (user_data : Option Nat) (priority : Nat) : em_error_t × em_manager :=
  if callback = none then (EM_ERR_INVALID_PARAM, m)
  else if EM_MAX_EVENT_TYPES ≤ event_id then (EM_ERR_INVALID_PARAM, m)
  else if EM_PRIORITY_COUNT ≤ priority then (EM_ERR_INVALID_PARAM, m)
  else
    let list := m.event_subscribers.getD event_id emptyList
    if EM_MAX_SUBSCRIBERS ≤ list.count then (EM_ERR_MAX_SUBSCRIBERS, m)
    else if hasActiveCallback callback list.subscribers then (EM_OK, m)
    else
      match fillFirstFree callback user_data priority list.subscribers with
      | some subs2 =>
        (EM_OK,
          { m with
              event_subscribers := m.event_subscribers.set event_id
                { subscribers := subs2, count := list.count + 1, sorted := false }
              stats := { m.stats with
                subscribers_total := u32inc m.stats.subscribers_total } })
      | none => (EM_ERR_MAX_SUBSCRIBERS, m)

/-- Function `em_unsubscribe` (body after the NULL-handle check). -/
def em_unsubscribe (m : em_manager) (event_id : Nat) (callback : Option Nat) :
    em_error_t × em_manager :=
  if callback = none then (EM_ERR_INVALID_PARAM, m)
  else if EM_MAX_EVENT_TYPES ≤ event_id then (EM_ERR_INVALID_PARAM, m)
  else
    let list := m.event_subscribers.getD event_id emptyList
    match removeFirstMatch callback list.subscribers with
    | some subs2 =>
      (EM_OK,
        { m with
            event_subscribers := m.event_subscribers.set event_id
              { list with subscribers := subs2, count := list.count - 1 }
            stats := { m.stats with
              subscribers_total := u32dec m.stats.subscribers_total } })
    | none => (EM_ERR_NOT_FOUND, m)

/-- The inner `while` of `sort_subscribers`.  The C loop variable `j` runs
downward from `i - 1`; here `k = j + 1` is the slot `temp` lands in when the
loop stops.  The loop shifts `subscribers[j]` up while it is active and of
strictly larger priority than `temp`, and stops at the array bottom, at an
inactive slot, or at a slot of priority at most `temp.priority`. -/
def insertFrom (temp : em_subscriber_t) :
    List em_subscriber_t → Nat → List em_subscriber_t
  | a, 0 => a.set 0 temp
  | a, k + 1 =>
    let prev := a.getD k emptySubscriber
    if prev.active && temp.priority < prev.priority then
      insertFrom temp (a.set (k + 1) prev) k
    else a.set (k + 1) temp

/-- Function `sort_subscribers`: insertion sort over the slots `1 .. EM_MAX_SUBSCRIBERS-1`,
skipping inactive pivots, then mark the table sorted.  A table that is already
marked sorted, or holds at most one subscriber, is returned unchanged. -/
def sort_subscribers (list : em_subscriber_list_t) : em_subscriber_list_t :=
  if list.sorted || list.count ≤ 1 then list
  else
    { list with
        subscribers :=
          (List.range' 1 (EM_MAX_SUBSCRIBERS - 1)).foldl
            (fun a i =>
              let temp := a.getD i emptySubscriber
              if temp.active then insertFrom temp a i else a)
            list.subscribers
        sorted := true }

/-- Function `dispatch_event`: sort the table if needed, snapshot the active slots in
index order, bump `events_processed`, and (outside the lock) invoke the
snapshot's callbacks in order.  The returned list is that snapshot: the C code
calls `callback(event_id, data, user_data)` for each entry whose callback is
non-NULL, in exactly this order. -/
def dispatch_event (m : em_manager) (event_id : Nat) (_data : Option Nat) :
    em_manager × List em_subscriber_t :=
  if EM_MAX_EVENT_TYPES ≤ event_id then (m, [])
  else
    let list := m.event_subscribers.getD event_id emptyList
    let list2 := if !list.sorted then sort_subscribers list else list
    let snapshot := list2.subscribers.filter fun s => s.active
    ({ m with
        event_subscribers := m.event_subscribers.set event_id list2
        stats := { m.stats with events_processed := u32inc m.stats.events_processed } },
      snapshot)

/-- The sum of the three queue counts as the C code computes it: a `uint32_t`
accumulator, hence the final reduction modulo `U32` (the accumulator never
actually wraps in a reachable state, where each count is at most 32). -/
def sumCounts (queues : List em_priority_queue_t) : Nat :=
  (queues.map fun q => q.count).sum % U32

/-- Function `em_publish_sync` (body after the NULL-handle check): bump
`events_published`, then dispatch.  Returns the invoked snapshot as well. -/
def em_publish_sync (m : em_manager) (event_id : Nat) (data : Option Nat) :
    em_error_t × em_manager × List em_subscriber_t :=
  if EM_MAX_EVENT_TYPES ≤ event_id then (EM_ERR_INVALID_PARAM, m, [])
  else
    let m1 := { m with stats :=
      { m.stats with events_published := u32inc m.stats.events_published } }
    let r := dispatch_event m1 event_id data
    (EM_OK, r.1, r.2)

/-- Function `em_publish_async` (body after the NULL-handle check).  `alloc` is the
`malloc` oracle: when `data` is non-NULL and `data_size > 0` the kernel
allocates a copy — `alloc = none` is the allocation failure, `alloc = some p`
the returned pointer.  On enqueue failure the copy is freed and the manager is
returned unchanged. -/
def em_publish_async (m : em_manager) (event_id : Nat) (data : Option Nat)
    (data_size : Nat) (priority : Nat) (alloc : Option Nat) :
    em_error_t × em_manager :=
  if EM_MAX_EVENT_TYPES ≤ event_id then (EM_ERR_INVALID_PARAM, m)
  else if EM_PRIORITY_COUNT ≤ priority then (EM_ERR_INVALID_PARAM, m)
  else if data.isSome && 0 < data_size && alloc.isNone then (EM_ERR_OUT_OF_MEMORY, m)
  else
    let data_copy : Option Nat := if data.isSome && 0 < data_size then alloc else none
    let event : em_event_t :=
      { id := event_id
        data := if data_copy.isSome then data_copy else data
        data_size := data_size
        priority := priority
        mode := 1 }
    let queue := m.async_queues.getD priority emptyQueue
    let res := enqueue_event queue event data_copy
    if res.1 = EM_OK then
      let queues2 := m.async_queues.set priority res.2
      let total := sumCounts queues2
      (EM_OK,
        { m with
            async_queues := queues2
            stats := { m.stats with
              events_published := u32inc m.stats.events_published
              async_queue_current := total
              async_queue_max :=
                if m.stats.async_queue_max < total then total
                else m.stats.async_queue_max } })
    else (res.1, m)

/-- The priority scan of `em_process_one`: walk the queues in index order
(HIGH = 0 first), dequeue from the first one with a positive count.  Returns
the absolute queue index, the dequeued `(event, data_copy)` pair and the
updated queue; `none` when every queue is empty. -/
def scanQueuesAux (i : Nat) :
    List em_priority_queue_t →
      Option (Nat × em_event_t × Option Nat × em_priority_queue_t)
  | [] => none
  | q :: rest =>
    if 0 < q.count then
      match dequeue_event q with
      | (EM_OK, some (ev, dc), q2) => some (i, ev, dc, q2)
      | _ => scanQueuesAux (i + 1) rest
    else scanQueuesAux (i + 1) rest

/-- Function `em_process_one` (body after the NULL-handle check): dequeue from the
first non-empty queue in priority order, refresh `async_queue_current`, then
dispatch the event outside the lock and free its data copy.  The last
component reports the dequeued `(event, data_copy)` pair. -/
def em_process_one (m : em_manager) :
    em_error_t × em_manager × Option (em_event_t × Option Nat) :=
  match scanQueuesAux 0 m.async_queues with
  | none => (EM_ERR_QUEUE_EMPTY, m, none)
  | some (i, ev, dc, q2) =>
    let queues2 := m.async_queues.set i q2
    let m2 :=
      { m with
          async_queues := queues2
          stats := { m.stats with async_queue_current := sumCounts queues2 } }
    let m3 := (dispatch_event m2 ev.id ev.data).1
    (EM_OK, m3, some (ev, dc))

/-- Function `em_clear_queue` (body after the NULL-handle check): free every data copy,
blank every node, reset all three rings and zero `async_queue_current`. -/
def em_clear_queue (m : em_manager) : em_manager :=
  { m with
      async_queues := m.async_queues.map fun q =>
        { nodes := q.nodes.map fun nd => { nd with data_copy := none, used := false }
          head := 0, tail := 0, count := 0 }
      stats := { m.stats with async_queue_current := 0 } }

/-- Function `em_reset_stats` (body after the NULL-handle check): zero the whole stats
block, then restore `subscribers_total` and `async_queue_current`. -/
def em_reset_stats (m : em_manager) : em_manager :=
  { m with stats :=
      { events_published := 0
        events_processed := 0
        async_queue_current := m.stats.async_queue_current
        async_queue_max := 0
        subscribers_total := m.stats.subscribers_total } }

/-- Function `em_get_subscriber_count`, including the NULL-handle check: `-1` for a
NULL handle or out-of-range event id, else the table's count. -/
def em_get_subscriber_count (handle : Option em_manager) (event_id : Nat) : Int :=
  match handle with
  | none => -1
  | some m =>
    if EM_MAX_EVENT_TYPES ≤ event_id then -1
    else ((m.event_subscribers.getD event_id emptyList).count : Int)

/-- Function `em_has_subscribers`: defined as the count being positive. -/
def em_has_subscribers (handle : Option em_manager) (event_id : Nat) : Bool :=
  decide (0 < em_get_subscriber_count handle event_id)

/-! ### General list and machine-integer helper lemmas -/

/-- Reading a list at an index other than the one just written is unchanged. -/
theorem getD_set_of_ne {α : Type} (l : List α) (i j : Nat) (a d : α) (h : i ≠ j) :
    (l.set i a).getD j d = l.getD j d := by
  rcases Nat.lt_or_ge j l.length with hj | hj
  · rw [List.getD_eq_getElem _ _ (by simpa using hj), List.getD_eq_getElem _ _ hj]
    exact List.getElem_set_ne h _
  · rw [List.getD_eq_default _ _ (by simpa using hj), List.getD_eq_default _ _ hj]

/-- Reading a list at the index just written yields the written value. -/
theorem getD_set_self_of_lt {α : Type} (l : List α) (i : Nat) (a d : α)
    (h : i < l.length) : (l.set i a).getD i d = a := by
  rw [List.getD_eq_getElem _ _ (by simpa using h)]
  exact List.getElem_set_self (by simpa using h)

/-- A `uint32_t` decrement undoes an increment below the wrap point. -/
theorem u32dec_u32inc (x : Nat) (h : x < U32) : u32dec (u32inc x) = x := by
  unfold u32dec u32inc U32 at *
  split <;> omega

/-! ### Ring-buffer abstraction -/

/-- Well-formedness of a per-priority ring: full node array, head in range,
count within capacity, tail determined by head and count. -/
def queueWF (q : em_priority_queue_t) : Prop :=
  q.nodes.length = EM_ASYNC_QUEUE_SIZE ∧ q.head < EM_ASYNC_QUEUE_SIZE ∧
  q.count ≤ EM_ASYNC_QUEUE_SIZE ∧ q.tail = (q.head + q.count) % EM_ASYNC_QUEUE_SIZE

instance (q : em_priority_queue_t) : Decidable (queueWF q) := by
  unfold queueWF; infer_instance

/-- The abstract FIFO content of a ring: the `count` populated nodes starting
at `head`, oldest first. -/
def queueList (q : em_priority_queue_t) : List em_queue_node_t :=
  (List.range q.count).map fun k =>
    q.nodes.getD ((q.head + k) % EM_ASYNC_QUEUE_SIZE) emptyNode

/-- A successful enqueue appends its node to the abstract FIFO content and
preserves well-formedness; no populated node is overwritten. -/
theorem enqueue_event_spec (q : em_priority_queue_t) (ev : em_event_t) (dc : Option Nat)
    (hwf : queueWF q) (hlt : q.count < EM_ASYNC_QUEUE_SIZE) :
    (enqueue_event q ev dc).1 = EM_OK ∧
    queueWF (enqueue_event q ev dc).2 ∧
    queueList (enqueue_event q ev dc).2 =
      queueList q ++ [{ event := ev, data_copy := dc, used := true }] := by
  obtain ⟨hlen, hhead, hcount, htail⟩ := hwf
  have hnotfull : ¬ EM_ASYNC_QUEUE_SIZE ≤ q.count := Nat.not_le_of_lt hlt
  refine ⟨by simp [enqueue_event, hnotfull], ⟨?_, ?_, ?_, ?_⟩, ?_⟩
  · simp [enqueue_event, hnotfull, hlen]
  · simp [enqueue_event, hnotfull, hhead]
  · simp only [enqueue_event, hnotfull, if_false]
    unfold EM_ASYNC_QUEUE_SIZE at *
    omega
  · simp only [enqueue_event, hnotfull, if_false]
    unfold EM_ASYNC_QUEUE_SIZE at *
    omega
  · simp only [enqueue_event, hnotfull, if_false, queueList]
    rw [List.range_succ, List.map_append]
    congr 1
    · apply List.map_congr_left
      intro k hk
      have hk' : k < q.count := List.mem_range.mp hk
      apply getD_set_of_ne
      unfold EM_ASYNC_QUEUE_SIZE at *
      omega
    · simp only [List.map_cons, List.map_nil]
      congr 1
      rw [htail]
      apply getD_set_self_of_lt
      rw [hlen]
      exact Nat.mod_lt _ (by norm_num [EM_ASYNC_QUEUE_SIZE])

/-- A successful dequeue returns the oldest node of the abstract FIFO content,
leaves the remaining nodes in order, and preserves well-formedness. -/
theorem dequeue_event_spec (q : em_priority_queue_t)
    (hwf : queueWF q) (hpos : 0 < q.count) :
    (dequeue_event q).1 = EM_OK ∧
    (dequeue_event q).2.1 = some ((q.nodes.getD q.head emptyNode).event,
                                  (q.nodes.getD q.head emptyNode).data_copy) ∧
    queueList q = q.nodes.getD q.head emptyNode :: queueList (dequeue_event q).2.2 ∧
    queueWF (dequeue_event q).2.2 := by
  obtain ⟨hlen, hhead, hcount, htail⟩ := hwf
  have hne : ¬ q.count = 0 := Nat.pos_iff_ne_zero.mp hpos
  refine ⟨by simp [dequeue_event, hne], by simp [dequeue_event, hne], ?_, ?_, ?_, ?_, ?_⟩
  · simp only [dequeue_event, hne, if_false, queueList]
    obtain ⟨c, hc⟩ : ∃ c, q.count = c + 1 := ⟨q.count - 1, by omega⟩
    rw [hc, List.range_succ_eq_map, List.map_cons, List.map_map]
    congr 1
    · rw [Nat.add_zero, Nat.mod_eq_of_lt hhead]
    · apply List.map_congr_left
      intro k hk
      have hk' : k < c := List.mem_range.mp hk
      simp only [Function.comp]
      rw [getD_set_of_ne]
      · congr 1
        unfold EM_ASYNC_QUEUE_SIZE at *
        omega
      · unfold EM_ASYNC_QUEUE_SIZE at *
        omega
  · simp [dequeue_event, hne, hlen]
  · simp only [dequeue_event, hne, if_false]
    exact Nat.mod_lt _ (by norm_num [EM_ASYNC_QUEUE_SIZE])
  · simp only [dequeue_event, hne, if_false]
    unfold EM_ASYNC_QUEUE_SIZE at *
    omega
  · simp only [dequeue_event, hne, if_false]
    unfold EM_ASYNC_QUEUE_SIZE at *
    omega

/-! ### Subscriber-table helper lemmas -/

/-- A table with no active slot for `callback` has nothing to remove. -/
theorem removeFirstMatch_eq_none (callback : Option Nat) (l : List em_subscriber_t)
    (h : hasActiveCallback callback l = false) :
    removeFirstMatch callback l = none := by
  induction l with
  | nil => rfl
  | cons s rest ih =>
    simp only [hasActiveCallback, List.any_cons, Bool.or_eq_false_iff] at h
    obtain ⟨h1, h2⟩ := h
    have h2' : hasActiveCallback callback rest = false := h2
    simp [removeFirstMatch, h1, ih h2']

/-- Filling the first free slot makes the callback active. -/
theorem fillFirstFree_hasActive (callback user_data : Option Nat) (priority : Nat)
    (l l2 : List em_subscriber_t)
    (h : fillFirstFree callback user_data priority l = some l2) :
    hasActiveCallback callback l2 = true := by
  induction l generalizing l2 with
  | nil => simp [fillFirstFree] at h
  | cons s rest ih =>
    by_cases ha : s.active
    · simp only [fillFirstFree, ha] at h
      simp only [Bool.not_true, Bool.false_eq_true, if_false] at h
      cases hf : fillFirstFree callback user_data priority rest with
      | none => rw [hf] at h; simp at h
      | some rest2 =>
        rw [hf] at h
        obtain rfl : s :: rest2 = l2 := by simpa using h
        have := ih rest2 hf
        simp only [hasActiveCallback, List.any_cons] at this ⊢
        simp [this]
    · simp only [Bool.not_eq_true] at ha
      simp only [fillFirstFree, ha] at h
      simp only [Bool.not_false, if_true] at h
      obtain rfl : _ :: rest = l2 := by simpa using h
      simp [hasActiveCallback]

/-- After filling the first free slot of a table that did not hold the
callback, the removal scan succeeds. -/
theorem fillFirstFree_removeFirstMatch (callback user_data : Option Nat) (priority : Nat)
    (l l2 : List em_subscriber_t)
    (hfresh : hasActiveCallback callback l = false)
    (h : fillFirstFree callback user_data priority l = some l2) :
    ∃ l3, removeFirstMatch callback l2 = some l3 := by
  induction l generalizing l2 with
  | nil => simp [fillFirstFree] at h
  | cons s rest ih =>
    simp only [hasActiveCallback, List.any_cons, Bool.or_eq_false_iff] at hfresh
    obtain ⟨h1, h2⟩ := hfresh
    by_cases ha : s.active
    · simp only [fillFirstFree, ha] at h
      simp only [Bool.not_true, Bool.false_eq_true, if_false] at h
      cases hf : fillFirstFree callback user_data priority rest with
      | none => rw [hf] at h; simp at h
      | some rest2 =>
        rw [hf] at h
        obtain rfl : s :: rest2 = l2 := by simpa using h
        obtain ⟨l3, hl3⟩ := ih rest2 h2 hf
        exact ⟨s :: l3, by simp [removeFirstMatch, h1, hl3]⟩
    · simp only [Bool.not_eq_true] at ha
      simp only [fillFirstFree, ha] at h
      simp only [Bool.not_false, if_true] at h
      obtain rfl : _ :: rest = l2 := by simpa using h
      refine ⟨{ callback := none, user_data := none, priority := priority,
                active := false } :: rest, ?_⟩
      simp [removeFirstMatch]

/-! ### Frame lemmas: which fields each operation leaves alone -/

/-- Frame: `dispatch_event` only resorts one subscriber table and bumps
`events_processed`. -/
theorem dispatch_event_frame (m : em_manager) (e : Nat) (d : Option Nat) :
    (dispatch_event m e d).1.async_queues = m.async_queues ∧
    (dispatch_event m e d).1.stats.async_queue_current = m.stats.async_queue_current ∧
    (dispatch_event m e d).1.stats.async_queue_max = m.stats.async_queue_max ∧
    (dispatch_event m e d).1.stats.events_published = m.stats.events_published ∧
    (dispatch_event m e d).1.stats.subscribers_total = m.stats.subscribers_total ∧
    (dispatch_event m e d).1.running = m.running := by
  unfold dispatch_event
  split_ifs <;> simp

/-- Branch analysis of `em_subscribe`: it either returns the manager
unchanged, or (all validations passed, the table below capacity, the callback
not yet present) populates the first free slot of one table. -/
theorem em_subscribe_snd_cases (m : em_manager) (e : Nat) (c u : Option Nat) (p : Nat) :
    (em_subscribe m e c u p).2 = m ∨
    ∃ subs2,
      c ≠ none ∧ e < EM_MAX_EVENT_TYPES ∧ p < EM_PRIORITY_COUNT ∧
      (m.event_subscribers.getD e emptyList).count < EM_MAX_SUBSCRIBERS ∧
      hasActiveCallback c (m.event_subscribers.getD e emptyList).subscribers = false ∧
      fillFirstFree c u p (m.event_subscribers.getD e emptyList).subscribers = some subs2 ∧
      (em_subscribe m e c u p).2 =
        { m with
            event_subscribers := m.event_subscribers.set e
              { subscribers := subs2
                count := (m.event_subscribers.getD e emptyList).count + 1
                sorted := false }
            stats := { m.stats with
              subscribers_total := u32inc m.stats.subscribers_total } } := by
  simp only [em_subscribe]
  by_cases h1 : c = none
  · rw [if_pos h1]; exact Or.inl rfl
  rw [if_neg h1]
  by_cases h2 : EM_MAX_EVENT_TYPES ≤ e
  · rw [if_pos h2]; exact Or.inl rfl
  rw [if_neg h2]
  by_cases h3 : EM_PRIORITY_COUNT ≤ p
  · rw [if_pos h3]; exact Or.inl rfl
  rw [if_neg h3]
  by_cases h4 : EM_MAX_SUBSCRIBERS ≤ (m.event_subscribers.getD e emptyList).count
  · rw [if_pos h4]; exact Or.inl rfl
  rw [if_neg h4]
  by_cases h5 : hasActiveCallback c (m.event_subscribers.getD e emptyList).subscribers = true
  · rw [if_pos h5]; exact Or.inl rfl
  rw [if_neg h5]
  cases hf : fillFirstFree c u p (m.event_subscribers.getD e emptyList).subscribers with
  | none => exact Or.inl rfl
  | some subs2 =>
    exact Or.inr ⟨subs2, h1, by omega, by omega, by omega, by simpa using h5, rfl, rfl⟩

/-- Branch analysis of `em_unsubscribe`: it either returns the manager
unchanged, or deactivates the matching slot of one table. -/
theorem em_unsubscribe_snd_cases (m : em_manager) (e : Nat) (c : Option Nat) :
    (em_unsubscribe m e c).2 = m ∨
    ∃ subs2,
      removeFirstMatch c (m.event_subscribers.getD e emptyList).subscribers = some subs2 ∧
      (em_unsubscribe m e c).2 =
        { m with
            event_subscribers := m.event_subscribers.set e
              { m.event_subscribers.getD e emptyList with
                  subscribers := subs2
                  count := (m.event_subscribers.getD e emptyList).count - 1 }
            stats := { m.stats with
              subscribers_total := u32dec m.stats.subscribers_total } } := by
  simp only [em_unsubscribe]
  by_cases h1 : c = none
  · rw [if_pos h1]; exact Or.inl rfl
  rw [if_neg h1]
  by_cases h2 : EM_MAX_EVENT_TYPES ≤ e
  · rw [if_pos h2]; exact Or.inl rfl
  rw [if_neg h2]
  cases hf : removeFirstMatch c (m.event_subscribers.getD e emptyList).subscribers with
  | none => exact Or.inl rfl
  | some subs2 => exact Or.inr ⟨subs2, rfl, rfl⟩

/-- Frame: `em_subscribe` only touches one subscriber table and `subscribers_total`. -/
theorem em_subscribe_frame (m : em_manager) (e : Nat) (c u : Option Nat) (p : Nat) :
    (em_subscribe m e c u p).2.async_queues = m.async_queues ∧
    (em_subscribe m e c u p).2.stats.async_queue_current = m.stats.async_queue_current ∧
    (em_subscribe m e c u p).2.stats.async_queue_max = m.stats.async_queue_max ∧
    (em_subscribe m e c u p).2.running = m.running := by
  rcases em_subscribe_snd_cases m e c u p with h | ⟨subs2, hc, he, hp2, hcnt, hdup, hf, h⟩
  · rw [h]; exact ⟨rfl, rfl, rfl, rfl⟩
  · rw [h]; exact ⟨rfl, rfl, rfl, rfl⟩

/-- Frame: `em_unsubscribe` only touches one subscriber table and `subscribers_total`. -/
theorem em_unsubscribe_frame (m : em_manager) (e : Nat) (c : Option Nat) :
    (em_unsubscribe m e c).2.async_queues = m.async_queues ∧
    (em_unsubscribe m e c).2.stats.async_queue_current = m.stats.async_queue_current ∧
    (em_unsubscribe m e c).2.stats.async_queue_max = m.stats.async_queue_max ∧
    (em_unsubscribe m e c).2.running = m.running := by
  rcases em_unsubscribe_snd_cases m e c with h | ⟨subs2, hf, h⟩
  · rw [h]; exact ⟨rfl, rfl, rfl, rfl⟩
  · rw [h]; exact ⟨rfl, rfl, rfl, rfl⟩

/-- Frame: `em_publish_sync` only bumps `events_published` beyond a dispatch. -/
theorem em_publish_sync_frame (m : em_manager) (e : Nat) (d : Option Nat) :
    (em_publish_sync m e d).2.1.async_queues = m.async_queues ∧
    (em_publish_sync m e d).2.1.stats.async_queue_current = m.stats.async_queue_current ∧
    (em_publish_sync m e d).2.1.stats.async_queue_max = m.stats.async_queue_max ∧
    (em_publish_sync m e d).2.1.running = m.running := by
  unfold em_publish_sync
  split_ifs with h1
  · exact ⟨rfl, rfl, rfl, rfl⟩
  · have h := dispatch_event_frame
      { m with stats := { m.stats with events_published := u32inc m.stats.events_published } } e d
    exact ⟨h.1, h.2.1, h.2.2.1, h.2.2.2.2.2⟩

/-! ### Claim C8 -/

/-- C8: `em_reset_stats` zeroes `events_published`, `events_processed` and
`async_queue_max`, preserves `subscribers_total` and `async_queue_current`,
and leaves the subscriber tables, the queues and the running flag untouched. -/
theorem em_reset_stats_spec (m : em_manager) :
    (em_reset_stats m).stats.events_published = 0 ∧
    (em_reset_stats m).stats.events_processed = 0 ∧
    (em_reset_stats m).stats.async_queue_max = 0 ∧
    (em_reset_stats m).stats.subscribers_total = m.stats.subscribers_total ∧
    (em_reset_stats m).stats.async_queue_current = m.stats.async_queue_current ∧
    (em_reset_stats m).event_subscribers = m.event_subscribers ∧
    (em_reset_stats m).async_queues = m.async_queues ∧
    (em_reset_stats m).running = m.running :=
  ⟨rfl, rfl, rfl, rfl, rfl, rfl, rfl, rfl⟩

/-! ### Claim C9 -/

/-- C9: for a NULL handle or an event id at or above `EM_MAX_EVENT_TYPES`,
`em_get_subscriber_count` returns `-1`, and `em_has_subscribers` returns
`false` (it is defined as the count being positive, so the error case is not
distinguishable from the no-subscribers case). -/
theorem em_get_subscriber_count_invalid (handle : Option em_manager) (event_id : Nat)
    (h : handle = none ∨ EM_MAX_EVENT_TYPES ≤ event_id) :
    em_get_subscriber_count handle event_id = -1 ∧
    em_has_subscribers handle event_id = false := by
  have hcount : em_get_subscriber_count handle event_id = -1 := by
    rcases h with h | h
    · subst h; rfl
    · cases handle with
      | none => rfl
      | some mm => simp [em_get_subscriber_count, h]
  refine ⟨hcount, ?_⟩
  simp only [em_has_subscribers, hcount]
  rfl

/-- Witness for C9 at a concrete input: the NULL handle. -/
theorem em_get_subscriber_count_invalid_witness :
    (none = (none : Option em_manager) ∨ EM_MAX_EVENT_TYPES ≤ 0) ∧
    (em_get_subscriber_count none 0 = -1 ∧ em_has_subscribers none 0 = false) :=
  ⟨Or.inl rfl, em_get_subscriber_count_invalid none 0 (Or.inl rfl)⟩

/-! ### Claim C4 -/

/-- C4: a failing `em_publish_async` leaves the manager exactly as it was:
any non-OK outcome returns the untouched state; the failure is
`EM_ERR_OUT_OF_MEMORY` precisely when a copy was requested and the allocation
failed (valid arguments), and `EM_ERR_QUEUE_FULL` when the allocation step
passed but the target ring was full. -/
theorem em_publish_async_failure (m : em_manager) (e : Nat) (d : Option Nat)
    (n p : Nat) (al : Option Nat)
    (h : (em_publish_async m e d n p al).1 ≠ EM_OK) :
    (em_publish_async m e d n p al).2 = m ∧
    (e < EM_MAX_EVENT_TYPES → p < EM_PRIORITY_COUNT →
      (d.isSome && decide (0 < n) && al.isNone) = true →
      (em_publish_async m e d n p al).1 = EM_ERR_OUT_OF_MEMORY) ∧
    (e < EM_MAX_EVENT_TYPES → p < EM_PRIORITY_COUNT →
      (d.isSome && decide (0 < n) && al.isNone) = false →
      EM_ASYNC_QUEUE_SIZE ≤ (m.async_queues.getD p emptyQueue).count →
      (em_publish_async m e d n p al).1 = EM_ERR_QUEUE_FULL) := by
  simp only [em_publish_async] at h ⊢
  by_cases h1 : EM_MAX_EVENT_TYPES ≤ e
  · rw [if_pos h1] at h ⊢
    exact ⟨rfl, fun he _ _ => absurd h1 (Nat.not_le_of_lt he),
           fun he _ _ _ => absurd h1 (Nat.not_le_of_lt he)⟩
  rw [if_neg h1] at h ⊢
  by_cases h2 : EM_PRIORITY_COUNT ≤ p
  · rw [if_pos h2] at h ⊢
    exact ⟨rfl, fun _ hp _ => absurd h2 (Nat.not_le_of_lt hp),
           fun _ hp _ _ => absurd h2 (Nat.not_le_of_lt hp)⟩
  rw [if_neg h2] at h ⊢
  by_cases hb : (d.isSome && decide (0 < n) && al.isNone) = true
  · rw [if_pos hb] at h ⊢
    exact ⟨rfl, fun _ _ _ => rfl, fun _ _ hb2 _ => absurd hb (by simp [hb2])⟩
  rw [if_neg hb] at h ⊢
  by_cases hfull : EM_ASYNC_QUEUE_SIZE ≤ (m.async_queues.getD p emptyQueue).count
  · simp only [enqueue_event, if_pos hfull] at h ⊢
    rw [if_neg (by simp)] at h ⊢
    exact ⟨rfl, fun _ _ hb2 => absurd hb2 hb, fun _ _ _ _ => rfl⟩
  · simp only [enqueue_event, if_neg hfull] at h ⊢
    rw [if_pos trivial] at h
    exact absurd rfl h

/-- Witness for C4 at a concrete input: publishing with a payload of one byte
under a failing allocator returns `EM_ERR_OUT_OF_MEMORY` and does not change
the freshly created manager. -/
theorem em_publish_async_failure_witness :
    (em_publish_async em_create 0 (some 5) 1 0 none).1 ≠ EM_OK ∧
    (em_publish_async em_create 0 (some 5) 1 0 none).2 = em_create ∧
    (em_publish_async em_create 0 (some 5) 1 0 none).1 = EM_ERR_OUT_OF_MEMORY :=
  ⟨by decide,
   (em_publish_async_failure em_create 0 (some 5) 1 0 none (by decide)).1,
   (em_publish_async_failure em_create 0 (some 5) 1 0 none (by decide)).2.1
     (by decide) (by decide) (by decide)⟩

/-! ### Claim C10 -/

/-- C10: `em_publish_async` with a NULL payload pointer and a positive length
allocates nothing (the result does not depend on the allocator), succeeds on
valid arguments with a non-full ring, and enqueues a node whose event data
pointer and owned-copy pointer are both NULL. -/
theorem em_publish_async_null_payload (m : em_manager) (e n p : Nat) (al : Option Nat)
    (he : e < EM_MAX_EVENT_TYPES) (hp : p < EM_PRIORITY_COUNT) (hn : 0 < n)
    (hq : (m.async_queues.getD p emptyQueue).count < EM_ASYNC_QUEUE_SIZE) :
    (em_publish_async m e none n p al).1 = EM_OK ∧
    (em_publish_async m e none n p al).2.async_queues =
      m.async_queues.set p
        { nodes := (m.async_queues.getD p emptyQueue).nodes.set
            (m.async_queues.getD p emptyQueue).tail
            { event := { id := e, data := none, data_size := n, priority := p, mode := 1 }
              data_copy := none, used := true }
          head := (m.async_queues.getD p emptyQueue).head
          tail := ((m.async_queues.getD p emptyQueue).tail + 1) % EM_ASYNC_QUEUE_SIZE
          count := (m.async_queues.getD p emptyQueue).count + 1 } := by
  simp only [em_publish_async]
  rw [if_neg (Nat.not_le_of_lt he), if_neg (Nat.not_le_of_lt hp)]
  rw [if_neg (by simp)]
  simp only [Option.isSome_none, Bool.false_and, Bool.false_eq_true, if_false]
  simp only [enqueue_event, if_neg (Nat.not_le_of_lt hq)]
  rw [if_pos trivial]
  exact ⟨rfl, rfl⟩

/-- Witness for C10 at a concrete input: the fresh manager, event 0,
length 4, priority `EM_PRIORITY_HIGH`. -/
theorem em_publish_async_null_payload_witness :
    (em_publish_async em_create 0 none 4 0 (some 7)).1 = EM_OK ∧
    (em_publish_async em_create 0 none 4 0 (some 7)).2.async_queues =
      em_create.async_queues.set 0
        { nodes := (em_create.async_queues.getD 0 emptyQueue).nodes.set 0
            { event := { id := 0, data := none, data_size := 4, priority := 0, mode := 1 }
              data_copy := none, used := true }
          head := 0, tail := 1, count := 1 } := by
  have h := em_publish_async_null_payload em_create 0 4 0 (some 7)
    (by decide) (by decide) (by decide) (by decide)
  exact ⟨h.1, h.2.trans (by decide)⟩

/-! ### Claim C6 -/

/-- C6: each per-priority ring is a bounded FIFO.  Under well-formedness,
enqueue fails with `EM_ERR_QUEUE_FULL` exactly when `count` has reached
`EM_ASYNC_QUEUE_SIZE` and then changes nothing (no node is overwritten);
a non-full enqueue appends its node to the abstract FIFO content; dequeue
fails with `EM_ERR_QUEUE_EMPTY` exactly when `count = 0` and then changes
nothing; a non-empty dequeue returns the oldest node and keeps the rest in
order.  Together the two append/pop-front facts give FIFO order within a
priority. -/
theorem priority_queue_fifo (q : em_priority_queue_t) (ev : em_event_t)
    (dc : Option Nat) (hwf : queueWF q) :
    (q.count = EM_ASYNC_QUEUE_SIZE → enqueue_event q ev dc = (EM_ERR_QUEUE_FULL, q)) ∧
    (q.count < EM_ASYNC_QUEUE_SIZE →
      (enqueue_event q ev dc).1 = EM_OK ∧
      queueList (enqueue_event q ev dc).2 =
        queueList q ++ [{ event := ev, data_copy := dc, used := true }] ∧
      queueWF (enqueue_event q ev dc).2) ∧
    (q.count = 0 → dequeue_event q = (EM_ERR_QUEUE_EMPTY, none, q)) ∧
    (0 < q.count →
      (dequeue_event q).1 = EM_OK ∧
      (dequeue_event q).2.1 = some ((q.nodes.getD q.head emptyNode).event,
                                    (q.nodes.getD q.head emptyNode).data_copy) ∧
      queueList q = q.nodes.getD q.head emptyNode :: queueList (dequeue_event q).2.2 ∧
      queueWF (dequeue_event q).2.2) := by
  refine ⟨?_, ?_, ?_, ?_⟩
  · intro hc
    simp [enqueue_event, hc]
  · intro hlt
    obtain ⟨h1, h2, h3⟩ := enqueue_event_spec q ev dc hwf hlt
    exact ⟨h1, h3, h2⟩
  · intro hc
    simp [dequeue_event, hc]
  · intro hpos
    exact dequeue_event_spec q hwf hpos

/-- Witness for C6 at a concrete input: the fresh ring is well-formed, its
dequeue reports an empty queue, and an enqueue into it succeeds. -/
theorem priority_queue_fifo_witness :
    queueWF emptyQueue ∧
    dequeue_event emptyQueue = (EM_ERR_QUEUE_EMPTY, none, emptyQueue) ∧
    (enqueue_event emptyQueue
        { id := 0, data := none, data_size := 0, priority := 0, mode := 1 } none).1 = EM_OK :=
  ⟨by decide,
   (priority_queue_fifo emptyQueue
      { id := 0, data := none, data_size := 0, priority := 0, mode := 1 } none
      (by decide)).2.2.1 rfl,
   ((priority_queue_fifo emptyQueue
      { id := 0, data := none, data_size := 0, priority := 0, mode := 1 } none
      (by decide)).2.1 (by decide)).1⟩

/-! ### Scan lemmas for `em_process_one` -/

/-- The scan dequeues from the first queue if it is non-empty. -/
theorem scanQueuesAux_cons_pos (i : Nat) (q : em_priority_queue_t)
    (rest : List em_priority_queue_t) (h : 0 < q.count) :
    scanQueuesAux i (q :: rest) =
      some (i, (q.nodes.getD q.head emptyNode).event,
            (q.nodes.getD q.head emptyNode).data_copy, (dequeue_event q).2.2) := by
  have hne : ¬ q.count = 0 := by omega
  simp [scanQueuesAux, dequeue_event, hne, h]

/-- The scan skips an empty first queue. -/
theorem scanQueuesAux_cons_zero (i : Nat) (q : em_priority_queue_t)
    (rest : List em_priority_queue_t) (h : q.count = 0) :
    scanQueuesAux i (q :: rest) = scanQueuesAux (i + 1) rest := by
  simp [scanQueuesAux, h]

/-- When the scan finds a queue, `em_process_one` reports success, hands back
exactly that queue's dequeued event, and replaces exactly that queue. -/
theorem em_process_one_of_scan (m : em_manager) (i : Nat) (ev : em_event_t)
    (dc : Option Nat) (q2 : em_priority_queue_t)
    (hscan : scanQueuesAux 0 m.async_queues = some (i, ev, dc, q2)) :
    (em_process_one m).1 = EM_OK ∧
    (em_process_one m).2.2 = some (ev, dc) ∧
    (em_process_one m).2.1.async_queues = m.async_queues.set i q2 := by
  simp only [em_process_one, hscan]
  refine ⟨trivial, trivial, ?_⟩
  exact (dispatch_event_frame _ ev.id ev.data).1

/-! ### Claim C5 -/

/-- C5: `em_process_one` scans the priorities in the order HIGH (0),
NORMAL (1), LOW (2) and dequeues exactly one event from the first non-empty
queue — so whenever a higher priority has a pending event it is chosen over
any lower one — and when all three queues are empty it returns
`EM_ERR_QUEUE_EMPTY` with the manager unchanged. -/
theorem em_process_one_priority_order (m : em_manager)
    (q0 q1 q2 : em_priority_queue_t) (h3 : m.async_queues = [q0, q1, q2]) :
    (q0.count = 0 → q1.count = 0 → q2.count = 0 →
      em_process_one m = (EM_ERR_QUEUE_EMPTY, m, none)) ∧
    (0 < q0.count →
      (em_process_one m).1 = EM_OK ∧
      (em_process_one m).2.2 = some ((q0.nodes.getD q0.head emptyNode).event,
                                     (q0.nodes.getD q0.head emptyNode).data_copy) ∧
      (em_process_one m).2.1.async_queues = [(dequeue_event q0).2.2, q1, q2]) ∧
    (q0.count = 0 → 0 < q1.count →
      (em_process_one m).1 = EM_OK ∧
      (em_process_one m).2.2 = some ((q1.nodes.getD q1.head emptyNode).event,
                                     (q1.nodes.getD q1.head emptyNode).data_copy) ∧
      (em_process_one m).2.1.async_queues = [q0, (dequeue_event q1).2.2, q2]) ∧
    (q0.count = 0 → q1.count = 0 → 0 < q2.count →
      (em_process_one m).1 = EM_OK ∧
      (em_process_one m).2.2 = some ((q2.nodes.getD q2.head emptyNode).event,
                                     (q2.nodes.getD q2.head emptyNode).data_copy) ∧
      (em_process_one m).2.1.async_queues = [q0, q1, (dequeue_event q2).2.2]) := by
  refine ⟨?_, ?_, ?_, ?_⟩
  · intro h0 h1 h2
    have hscan : scanQueuesAux 0 m.async_queues = none := by
      rw [h3, scanQueuesAux_cons_zero _ _ _ h0, scanQueuesAux_cons_zero _ _ _ h1,
          scanQueuesAux_cons_zero _ _ _ h2]
      rfl
    simp only [em_process_one, hscan]
  · intro h0
    have hscan : scanQueuesAux 0 m.async_queues =
        some (0, (q0.nodes.getD q0.head emptyNode).event,
              (q0.nodes.getD q0.head emptyNode).data_copy, (dequeue_event q0).2.2) := by
      rw [h3, scanQueuesAux_cons_pos _ _ _ h0]
    obtain ⟨a, b, c⟩ := em_process_one_of_scan m _ _ _ _ hscan
    refine ⟨a, b, ?_⟩
    rw [c, h3]
    rfl
  · intro h0 h1
    have hscan : scanQueuesAux 0 m.async_queues =
        some (1, (q1.nodes.getD q1.head emptyNode).event,
              (q1.nodes.getD q1.head emptyNode).data_copy, (dequeue_event q1).2.2) := by
      rw [h3, scanQueuesAux_cons_zero _ _ _ h0, scanQueuesAux_cons_pos _ _ _ h1]
    obtain ⟨a, b, c⟩ := em_process_one_of_scan m _ _ _ _ hscan
    refine ⟨a, b, ?_⟩
    rw [c, h3]
    rfl
  · intro h0 h1 h2
    have hscan : scanQueuesAux 0 m.async_queues =
        some (2, (q2.nodes.getD q2.head emptyNode).event,
              (q2.nodes.getD q2.head emptyNode).data_copy, (dequeue_event q2).2.2) := by
      rw [h3, scanQueuesAux_cons_zero _ _ _ h0, scanQueuesAux_cons_zero _ _ _ h1,
          scanQueuesAux_cons_pos _ _ _ h2]
    obtain ⟨a, b, c⟩ := em_process_one_of_scan m _ _ _ _ hscan
    refine ⟨a, b, ?_⟩
    rw [c, h3]
    rfl

/-- Witness for C5 at a concrete input: the fresh manager has three empty
queues, and `em_process_one` returns `EM_ERR_QUEUE_EMPTY` without change. -/
theorem em_process_one_priority_order_witness :
    em_create.async_queues = [emptyQueue, emptyQueue, emptyQueue] ∧
    em_process_one em_create = (EM_ERR_QUEUE_EMPTY, em_create, none) :=
  ⟨by decide,
   (em_process_one_priority_order em_create emptyQueue emptyQueue emptyQueue
      (by decide)).1 rfl rfl rfl⟩

/-! ### Claim C2 (corrected) -/

/-- Applying `em_subscribe` twice with the same arguments leaves the same
state as applying it once (the second call's return code may differ: it is
`EM_ERR_MAX_SUBSCRIBERS` when the first call filled the table). -/
theorem em_subscribe_state_idem (m : em_manager) (e : Nat) (c u : Option Nat) (p : Nat)
    (hlen : m.event_subscribers.length = EM_MAX_EVENT_TYPES) :
    (em_subscribe (em_subscribe m e c u p).2 e c u p).2 = (em_subscribe m e c u p).2 := by
  rcases em_subscribe_snd_cases m e c u p with h | ⟨subs2, hc, he, hp, hcnt, hdup, hf, h⟩
  · rw [h]
    exact h
  · rw [h]
    have hget :
        ((em_subscribe m e c u p).2.event_subscribers.getD e emptyList) =
          { subscribers := subs2
            count := (m.event_subscribers.getD e emptyList).count + 1
            sorted := false } := by
      rw [h]
      exact getD_set_self_of_lt _ _ _ _ (by rw [hlen]; exact he)
    rw [h] at hget
    simp only [em_subscribe, hget]
    rw [if_neg hc, if_neg (Nat.not_le_of_lt he), if_neg (Nat.not_le_of_lt hp)]
    by_cases hfull : EM_MAX_SUBSCRIBERS ≤ (m.event_subscribers.getD e emptyList).count + 1
    · rw [if_pos hfull]
    · rw [if_neg hfull, if_pos (fillFirstFree_hasActive c u p _ subs2 hf)]

/-- A manager whose event-0 subscriber table is full: sixteen distinct
subscribers registered through the public operation. -/
def mFullTable : em_manager :=
  (List.range EM_MAX_SUBSCRIBERS).foldl
    (fun mm k => (em_subscribe mm 0 (some (k + 1)) none 1).2) em_create

/-- Counterexample to C2 as stated: in `mFullTable`, callback 1 has an active
slot for event 0, yet re-subscribing it returns `EM_ERR_MAX_SUBSCRIBERS`
rather than `EM_OK` — `em_subscribe` checks the capacity bound before the
duplicate scan, so the promised no-op success does not hold when the table is
full.  (The state is still unchanged.) -/
theorem em_subscribe_duplicate_cex :
    hasActiveCallback (some 1)
      (mFullTable.event_subscribers.getD 0 emptyList).subscribers = true ∧
    (mFullTable.event_subscribers.getD 0 emptyList).count = EM_MAX_SUBSCRIBERS ∧
    em_subscribe mFullTable 0 (some 1) none 1 = (EM_ERR_MAX_SUBSCRIBERS, mFullTable) := by
  decide

/-- C2 (amended): when the (event, callback) pair already has an active slot,
`em_subscribe` is a no-op *success* only while the table is below
`EM_MAX_SUBSCRIBERS`; on a full table it is a no-op returning
`EM_ERR_MAX_SUBSCRIBERS` (the capacity check precedes the duplicate check).
In both cases the subscriber table, stored priority, stored user context and
`subscribers_total` are untouched, and applying the call twice leaves the
same state as applying it once. -/
theorem em_subscribe_duplicate_spec (m : em_manager) (e : Nat) (c u : Option Nat) (p : Nat)
    (hlen : m.event_subscribers.length = EM_MAX_EVENT_TYPES)
    (hc : c ≠ none) (he : e < EM_MAX_EVENT_TYPES) (hp : p < EM_PRIORITY_COUNT)
    (hdup : hasActiveCallback c (m.event_subscribers.getD e emptyList).subscribers = true) :
    ((m.event_subscribers.getD e emptyList).count < EM_MAX_SUBSCRIBERS →
      em_subscribe m e c u p = (EM_OK, m)) ∧
    (EM_MAX_SUBSCRIBERS ≤ (m.event_subscribers.getD e emptyList).count →
      em_subscribe m e c u p = (EM_ERR_MAX_SUBSCRIBERS, m)) ∧
    (em_subscribe (em_subscribe m e c u p).2 e c u p).2 = (em_subscribe m e c u p).2 := by
  refine ⟨?_, ?_, em_subscribe_state_idem m e c u p hlen⟩
  · intro hcnt
    simp only [em_subscribe]
    rw [if_neg hc, if_neg (Nat.not_le_of_lt he), if_neg (Nat.not_le_of_lt hp),
        if_neg (Nat.not_le_of_lt hcnt), if_pos hdup]
  · intro hcnt
    simp only [em_subscribe]
    rw [if_neg hc, if_neg (Nat.not_le_of_lt he), if_neg (Nat.not_le_of_lt hp),
        if_pos hcnt]

/-- Witness for C2 (amended) at a concrete input: a manager with one
subscriber; re-subscribing the same callback is a no-op success. -/
theorem em_subscribe_duplicate_spec_witness :
    hasActiveCallback (some 1)
      (((em_subscribe em_create 0 (some 1) none 1).2).event_subscribers.getD 0
        emptyList).subscribers = true ∧
    em_subscribe (em_subscribe em_create 0 (some 1) none 1).2 0 (some 1) none 1 =
      (EM_OK, (em_subscribe em_create 0 (some 1) none 1).2) :=
  ⟨by decide,
   (em_subscribe_duplicate_spec (em_subscribe em_create 0 (some 1) none 1).2 0
      (some 1) none 1 (by decide) (by decide) (by decide) (by decide) (by decide)).1
     (by decide)⟩

/-! ### Claim C7 (corrected) -/

/-- A manager in which callback 1 is already subscribed to event 0. -/
def mOneSub : em_manager := (em_subscribe em_create 0 (some 1) none 1).2

/-- Counterexample to C7 as stated: when the callback is *already* subscribed,
the subscribe half of the pair is a no-op but the unsubscribe half removes the
pre-existing slot, so the pair lowers `SubscriberCount(e)` and
`subscribers_total` by one instead of restoring them. -/
theorem subscribe_unsubscribe_cex :
    em_get_subscriber_count (some mOneSub) 0 = 1 ∧
    mOneSub.stats.subscribers_total = 1 ∧
    em_get_subscriber_count
      (some (em_unsubscribe (em_subscribe mOneSub 0 (some 1) none 1).2 0 (some 1)).2) 0 = 0 ∧
    (em_unsubscribe (em_subscribe mOneSub 0 (some 1) none 1).2 0
      (some 1)).2.stats.subscribers_total = 0 := by
  decide

/-- C7 (amended): for every manager state and arguments such that the
(event, callback) pair has *no* active slot yet, `em_subscribe` followed by
`em_unsubscribe` restores `SubscriberCount(e)` (as read through
`em_get_subscriber_count`) and `subscribers_total` to their values before the
pair of calls. -/
theorem subscribe_unsubscribe_roundtrip (m : em_manager) (e : Nat) (c u : Option Nat) (p : Nat)
    (hlen : m.event_subscribers.length = EM_MAX_EVENT_TYPES)
    (htot : m.stats.subscribers_total < U32)
    (hfresh : hasActiveCallback c (m.event_subscribers.getD e emptyList).subscribers = false) :
    em_get_subscriber_count (some (em_unsubscribe (em_subscribe m e c u p).2 e c).2) e =
      em_get_subscriber_count (some m) e ∧
    (em_unsubscribe (em_subscribe m e c u p).2 e c).2.stats.subscribers_total =
      m.stats.subscribers_total := by
  rcases em_subscribe_snd_cases m e c u p with h | ⟨subs2, hc, he, hp, hcnt, hdup, hf, h⟩
  · rw [h]
    have hrm : removeFirstMatch c (m.event_subscribers.getD e emptyList).subscribers = none :=
      removeFirstMatch_eq_none c _ hfresh
    have h2 : (em_unsubscribe m e c).2 = m := by
      simp only [em_unsubscribe]
      by_cases h1 : c = none
      · rw [if_pos h1]
      · rw [if_neg h1]
        by_cases hE : EM_MAX_EVENT_TYPES ≤ e
        · rw [if_pos hE]
        · rw [if_neg hE]
          simp only [hrm]
    rw [h2]
    exact ⟨rfl, rfl⟩
  · rw [h]
    obtain ⟨l3, hl3⟩ := fillFirstFree_removeFirstMatch c u p _ subs2 hfresh hf
    have hgetIns :
        (m.event_subscribers.set e
          { subscribers := subs2
            count := (m.event_subscribers.getD e emptyList).count + 1
            sorted := false }).getD e emptyList =
        { subscribers := subs2
          count := (m.event_subscribers.getD e emptyList).count + 1
          sorted := false } :=
      getD_set_self_of_lt _ _ _ _ (by rw [hlen]; exact he)
    simp only [em_unsubscribe, hgetIns]
    rw [if_neg hc, if_neg (Nat.not_le_of_lt he)]
    simp only [hl3]
    constructor
    · simp only [em_get_subscriber_count]
      rw [if_neg (Nat.not_le_of_lt he), if_neg (Nat.not_le_of_lt he)]
      have hgetRem :
          ((m.event_subscribers.set e
              { subscribers := subs2
                count := (m.event_subscribers.getD e emptyList).count + 1
                sorted := false }).set e
            { subscribers := l3
              count := (m.event_subscribers.getD e emptyList).count + 1 - 1
              sorted := false }).getD e emptyList =
          { subscribers := l3
            count := (m.event_subscribers.getD e emptyList).count + 1 - 1
            sorted := false } :=
        getD_set_self_of_lt _ _ _ _ (by rw [List.length_set, hlen]; exact he)
      rw [hgetRem]
      simp
    · exact u32dec_u32inc m.stats.subscribers_total htot

/-- Witness for C7 (amended) at a concrete input: event 0, callback 1 on the
fresh manager. -/
theorem subscribe_unsubscribe_roundtrip_witness :
    hasActiveCallback (some 1)
      (em_create.event_subscribers.getD 0 emptyList).subscribers = false ∧
    (em_get_subscriber_count
        (some (em_unsubscribe (em_subscribe em_create 0 (some 1) none 1).2 0 (some 1)).2) 0 =
      em_get_subscriber_count (some em_create) 0 ∧
     (em_unsubscribe (em_subscribe em_create 0 (some 1) none 1).2 0
        (some 1)).2.stats.subscribers_total = em_create.stats.subscribers_total) :=
  ⟨by decide,
   subscribe_unsubscribe_roundtrip em_create 0 (some 1) none 1
     (by decide) (by decide) (by decide)⟩

/-! ### Claim C3 (code bug) -/

/-- The state reached by: subscribe callback 1 (NORMAL) and callback 2
(NORMAL) to event 0, subscribe callback 3 (HIGH), then unsubscribe
callback 2 — leaving an inactive gap at slot 1 below the HIGH subscriber at
slot 2, with the table marked unsorted. -/
def mGapState : em_manager :=
  (em_unsubscribe
    (em_subscribe
      (em_subscribe
        (em_subscribe em_create 0 (some 1) none 1).2
        0 (some 2) none 1).2
      0 (some 3) none 0).2
    0 (some 2)).2

/-- C3 fails on the code: dispatching event 0 from the reachable state
`mGapState` invokes the NORMAL-priority callback 1 (priority 1) before the
HIGH-priority callback 3 (priority 0), so the invocation order is not
non-decreasing in priority.  The inner `while` of `sort_subscribers` stops at
the first inactive slot, so an active subscriber is never moved across an
inactive gap left by an unsubscribe. -/
theorem dispatch_priority_violation :
    ((dispatch_event mGapState 0 none).2.map fun s => (s.callback, s.priority)) =
      [(some 1, 1), (some 3, 0)] := by
  decide

/-! ### Gauge invariant machinery for the statistics (claim C1) -/

/-- Queue-side well-formedness needed by the gauge argument: three queues,
each within capacity. -/
def queuesWF (m : em_manager) : Prop :=
  m.async_queues.length = EM_PRIORITY_COUNT ∧
  ∀ q ∈ m.async_queues, q.count ≤ EM_ASYNC_QUEUE_SIZE

instance (m : em_manager) : Decidable (queuesWF m) := by
  unfold queuesWF; infer_instance

/-- The sum of the per-priority queue counts equals `async_queue_current`. -/
def sumInv (m : em_manager) : Prop :=
  m.stats.async_queue_current = sumCounts m.async_queues

instance (m : em_manager) : Decidable (sumInv m) := by
  unfold sumInv; infer_instance

/-- The two stated invariants of claim C1: the count sum equals the
`async_queue_current` gauge, and the gauge never exceeds the
`async_queue_max` high-water mark. -/
def gaugeInv (m : em_manager) : Prop :=
  sumInv m ∧ m.stats.async_queue_current ≤ m.stats.async_queue_max

instance (m : em_manager) : Decidable (gaugeInv m) := by
  unfold gaugeInv; infer_instance

/-- A dequeue lowers the count by one. -/
theorem dequeue_event_count (q : em_priority_queue_t) (h : ¬ q.count = 0) :
    (dequeue_event q).2.2.count = q.count - 1 := by
  simp [dequeue_event, h]

/-- Preservation: `em_publish_async` preserves the queue bounds and the gauge invariant:
on success it recomputes `async_queue_current` as the fresh count sum and
raises `async_queue_max` to at least that value; on failure it changes
nothing. -/
theorem em_publish_async_preserves (m : em_manager) (e : Nat) (d : Option Nat)
    (n p : Nat) (al : Option Nat) (hwf : queuesWF m) (hg : gaugeInv m) :
    queuesWF (em_publish_async m e d n p al).2 ∧
    gaugeInv (em_publish_async m e d n p al).2 := by
  simp only [em_publish_async]
  by_cases h1 : EM_MAX_EVENT_TYPES ≤ e
  · rw [if_pos h1]; exact ⟨hwf, hg⟩
  rw [if_neg h1]
  by_cases h2 : EM_PRIORITY_COUNT ≤ p
  · rw [if_pos h2]; exact ⟨hwf, hg⟩
  rw [if_neg h2]
  by_cases hb : (d.isSome && decide (0 < n) && al.isNone) = true
  · rw [if_pos hb]; exact ⟨hwf, hg⟩
  rw [if_neg hb]
  by_cases hfull : EM_ASYNC_QUEUE_SIZE ≤ (m.async_queues.getD p emptyQueue).count
  · simp only [enqueue_event, if_pos hfull]
    rw [if_neg (by simp)]
    exact ⟨hwf, hg⟩
  · simp only [enqueue_event, if_neg hfull]
    rw [if_pos trivial]
    obtain ⟨hlen, hbound⟩ := hwf
    refine ⟨⟨by simpa using hlen, ?_⟩, ?_, ?_⟩
    · intro q hq
      rcases List.mem_or_eq_of_mem_set hq with hmem | rfl
      · exact hbound q hmem
      · show (m.async_queues.getD p emptyQueue).count + 1 ≤ EM_ASYNC_QUEUE_SIZE
        omega
    · exact rfl
    · show sumCounts _ ≤ ite _ _ _
      by_cases hmax : m.stats.async_queue_max < sumCounts
          (m.async_queues.set p
            { nodes := (m.async_queues.getD p emptyQueue).nodes.set
                (m.async_queues.getD p emptyQueue).tail
                { event := { id := e
                             data := if (if (d.isSome && decide (0 < n)) = true
                                         then al else none).isSome = true
                                     then (if (d.isSome && decide (0 < n)) = true
                                           then al else none) else d
                             data_size := n, priority := p, mode := 1 }
                  data_copy := if (d.isSome && decide (0 < n)) = true then al else none
                  used := true }
              head := (m.async_queues.getD p emptyQueue).head
              tail := ((m.async_queues.getD p emptyQueue).tail + 1) % EM_ASYNC_QUEUE_SIZE
              count := (m.async_queues.getD p emptyQueue).count + 1 })
      · rw [if_pos hmax]
      · rw [if_neg hmax]
        exact Nat.le_of_not_lt hmax

/-- The count sum of an explicit three-queue list. -/
theorem sumCounts_three (a b c : em_priority_queue_t) :
    sumCounts [a, b, c] = (a.count + (b.count + c.count)) % U32 := by
  simp [sumCounts]

/-- What `em_process_one` does to the queue fields when the scan finds a
queue: the queue list is updated at the found index, `async_queue_current` is
recomputed, and `async_queue_max` is untouched. -/
theorem em_process_one_state_of_scan (m : em_manager) (i : Nat) (ev : em_event_t)
    (dc : Option Nat) (qi2 : em_priority_queue_t)
    (hscan : scanQueuesAux 0 m.async_queues = some (i, ev, dc, qi2)) :
    (em_process_one m).2.1.async_queues = m.async_queues.set i qi2 ∧
    (em_process_one m).2.1.stats.async_queue_current =
      sumCounts (m.async_queues.set i qi2) ∧
    (em_process_one m).2.1.stats.async_queue_max = m.stats.async_queue_max := by
  simp only [em_process_one, hscan]
  refine ⟨(dispatch_event_frame _ ev.id ev.data).1, ?_, ?_⟩
  · rw [(dispatch_event_frame _ ev.id ev.data).2.1]
  · rw [(dispatch_event_frame _ ev.id ev.data).2.2.1]

/-- Preservation: `em_process_one` preserves the queue bounds and the gauge invariant: a
dequeue can only lower the count sum, and `async_queue_max` is untouched. -/
theorem em_process_one_preserves (m : em_manager) (hwf : queuesWF m) (hg : gaugeInv m) :
    queuesWF (em_process_one m).2.1 ∧ gaugeInv (em_process_one m).2.1 := by
  obtain ⟨hlen, hbound⟩ := hwf
  obtain ⟨q0, q1, q2, h3⟩ := List.length_eq_three.mp hlen
  have hb0 : q0.count ≤ EM_ASYNC_QUEUE_SIZE := hbound q0 (by rw [h3]; simp)
  have hb1 : q1.count ≤ EM_ASYNC_QUEUE_SIZE := hbound q1 (by rw [h3]; simp)
  have hb2 : q2.count ≤ EM_ASYNC_QUEUE_SIZE := hbound q2 (by rw [h3]; simp)
  obtain ⟨hsum, hle⟩ := hg
  unfold sumInv at hsum
  rw [h3, sumCounts_three] at hsum
  have hmodOld : (q0.count + (q1.count + q2.count)) % U32 =
      q0.count + (q1.count + q2.count) :=
    Nat.mod_eq_of_lt (by unfold U32 EM_ASYNC_QUEUE_SIZE at *; omega)
  by_cases h0 : q0.count = 0
  · by_cases hc1 : q1.count = 0
    · by_cases hc2 : q2.count = 0
      · have hscan : scanQueuesAux 0 m.async_queues = none := by
          rw [h3, scanQueuesAux_cons_zero _ _ _ h0, scanQueuesAux_cons_zero _ _ _ hc1,
              scanQueuesAux_cons_zero _ _ _ hc2]
          rfl
        simp only [em_process_one, hscan]
        exact ⟨⟨hlen, hbound⟩, ⟨by unfold sumInv; rw [h3, sumCounts_three]; exact hsum, hle⟩⟩
      · have hscan : scanQueuesAux 0 m.async_queues =
            some (2, (q2.nodes.getD q2.head emptyNode).event,
                  (q2.nodes.getD q2.head emptyNode).data_copy, (dequeue_event q2).2.2) := by
          rw [h3, scanQueuesAux_cons_zero _ _ _ h0, scanQueuesAux_cons_zero _ _ _ hc1,
              scanQueuesAux_cons_pos _ _ _ (Nat.pos_of_ne_zero hc2)]
        obtain ⟨e1, e2, e3⟩ := em_process_one_state_of_scan m _ _ _ _ hscan
        have hset : m.async_queues.set 2 (dequeue_event q2).2.2 =
            [q0, q1, (dequeue_event q2).2.2] := by rw [h3]; rfl
        have hcnt : (dequeue_event q2).2.2.count = q2.count - 1 := dequeue_event_count q2 hc2
        refine ⟨⟨?_, ?_⟩, ⟨?_, ?_⟩⟩
        · rw [e1, hset]; rfl
        · rw [e1, hset]
          intro q hq
          simp only [List.mem_cons, List.not_mem_nil, or_false] at hq
          rcases hq with h | h | h
          · rw [h]; exact hb0
          · rw [h]; exact hb1
          · rw [h, hcnt]; omega
        · unfold sumInv
          rw [e2, e1]
        · rw [e2, e3, hset, sumCounts_three, hcnt]
          have hmodNew : (q0.count + (q1.count + (q2.count - 1))) % U32 =
              q0.count + (q1.count + (q2.count - 1)) :=
            Nat.mod_eq_of_lt (by unfold U32 EM_ASYNC_QUEUE_SIZE at *; omega)
          rw [hmodNew]
          rw [hmodOld] at hsum
          omega
    · have hscan : scanQueuesAux 0 m.async_queues =
          some (1, (q1.nodes.getD q1.head emptyNode).event,
                (q1.nodes.getD q1.head emptyNode).data_copy, (dequeue_event q1).2.2) := by
        rw [h3, scanQueuesAux_cons_zero _ _ _ h0,
            scanQueuesAux_cons_pos _ _ _ (Nat.pos_of_ne_zero hc1)]
      obtain ⟨e1, e2, e3⟩ := em_process_one_state_of_scan m _ _ _ _ hscan
      have hset : m.async_queues.set 1 (dequeue_event q1).2.2 =
          [q0, (dequeue_event q1).2.2, q2] := by rw [h3]; rfl
      have hcnt : (dequeue_event q1).2.2.count = q1.count - 1 := dequeue_event_count q1 hc1
      refine ⟨⟨?_, ?_⟩, ⟨?_, ?_⟩⟩
      · rw [e1, hset]; rfl
      · rw [e1, hset]
        intro q hq
        simp only [List.mem_cons, List.not_mem_nil, or_false] at hq
        rcases hq with h | h | h
        · rw [h]; exact hb0
        · rw [h, hcnt]; omega
        · rw [h]; exact hb2
      · unfold sumInv
        rw [e2, e1]
      · rw [e2, e3, hset, sumCounts_three, hcnt]
        have hmodNew : (q0.count + ((q1.count - 1) + q2.count)) % U32 =
            q0.count + ((q1.count - 1) + q2.count) :=
          Nat.mod_eq_of_lt (by unfold U32 EM_ASYNC_QUEUE_SIZE at *; omega)
        rw [hmodNew]
        rw [hmodOld] at hsum
        omega
  · have hscan : scanQueuesAux 0 m.async_queues =
        some (0, (q0.nodes.getD q0.head emptyNode).event,
              (q0.nodes.getD q0.head emptyNode).data_copy, (dequeue_event q0).2.2) := by
      rw [h3, scanQueuesAux_cons_pos _ _ _ (Nat.pos_of_ne_zero h0)]
    obtain ⟨e1, e2, e3⟩ := em_process_one_state_of_scan m _ _ _ _ hscan
    have hset : m.async_queues.set 0 (dequeue_event q0).2.2 =
        [(dequeue_event q0).2.2, q1, q2] := by rw [h3]; rfl
    have hcnt : (dequeue_event q0).2.2.count = q0.count - 1 := dequeue_event_count q0 h0
    refine ⟨⟨?_, ?_⟩, ⟨?_, ?_⟩⟩
    · rw [e1, hset]; rfl
    · rw [e1, hset]
      intro q hq
      simp only [List.mem_cons, List.not_mem_nil, or_false] at hq
      rcases hq with h | h | h
      · rw [h, hcnt]; omega
      · rw [h]; exact hb1
      · rw [h]; exact hb2
    · unfold sumInv
      rw [e2, e1]
    · rw [e2, e3, hset, sumCounts_three, hcnt]
      have hmodNew : ((q0.count - 1) + (q1.count + q2.count)) % U32 =
          (q0.count - 1) + (q1.count + q2.count) :=
        Nat.mod_eq_of_lt (by unfold U32 EM_ASYNC_QUEUE_SIZE at *; omega)
      rw [hmodNew]
      rw [hmodOld] at hsum
      omega

/-- Clearing the rings zeroes every count. -/
theorem sumCounts_clear (l : List em_priority_queue_t) :
    sumCounts (l.map fun q =>
      ({ nodes := q.nodes.map fun nd => { nd with data_copy := none, used := false }
         head := 0, tail := 0, count := 0 } : em_priority_queue_t)) = 0 := by
  unfold sumCounts
  have : ((l.map fun q =>
      ({ nodes := q.nodes.map fun nd => { nd with data_copy := none, used := false }
         head := 0, tail := 0, count := 0 } : em_priority_queue_t)).map
        fun q => q.count).sum = 0 := by
    induction l with
    | nil => rfl
    | cons x xs ih => simpa using ih
  rw [this]
  rfl

/-- Preservation: `em_clear_queue` preserves the queue bounds and restores the gauge
invariant outright: every count and `async_queue_current` become zero. -/
theorem em_clear_queue_preserves (m : em_manager) (hwf : queuesWF m) :
    queuesWF (em_clear_queue m) ∧ gaugeInv (em_clear_queue m) := by
  obtain ⟨hlen, _⟩ := hwf
  refine ⟨⟨by simpa [em_clear_queue] using hlen, ?_⟩, ⟨?_, ?_⟩⟩
  · intro q hq
    simp only [em_clear_queue] at hq
    obtain ⟨q0, _, rfl⟩ := List.mem_map.mp hq
    show (0 : Nat) ≤ EM_ASYNC_QUEUE_SIZE
    exact Nat.zero_le _
  · unfold sumInv
    show (0 : Nat) = sumCounts _
    simp only [em_clear_queue]
    rw [sumCounts_clear]
  · exact Nat.zero_le _

/-- Operations that do not touch the queues or the two gauges preserve the
invariants: `em_subscribe`. -/
theorem em_subscribe_preserves (m : em_manager) (e : Nat) (c u : Option Nat) (p : Nat)
    (hwf : queuesWF m) (hg : gaugeInv m) :
    queuesWF (em_subscribe m e c u p).2 ∧ gaugeInv (em_subscribe m e c u p).2 := by
  obtain ⟨f1, f2, f3, _⟩ := em_subscribe_frame m e c u p
  refine ⟨?_, ?_, ?_⟩
  · unfold queuesWF
    rw [f1]
    exact hwf
  · unfold sumInv
    rw [f1, f2]
    exact hg.1
  · rw [f2, f3]
    exact hg.2

/-- Operations that do not touch the queues or the two gauges preserve the
invariants: `em_unsubscribe`. -/
theorem em_unsubscribe_preserves (m : em_manager) (e : Nat) (c : Option Nat)
    (hwf : queuesWF m) (hg : gaugeInv m) :
    queuesWF (em_unsubscribe m e c).2 ∧ gaugeInv (em_unsubscribe m e c).2 := by
  obtain ⟨f1, f2, f3, _⟩ := em_unsubscribe_frame m e c
  refine ⟨?_, ?_, ?_⟩
  · unfold queuesWF
    rw [f1]
    exact hwf
  · unfold sumInv
    rw [f1, f2]
    exact hg.1
  · rw [f2, f3]
    exact hg.2

/-- Operations that do not touch the queues or the two gauges preserve the
invariants: `em_publish_sync`. -/
theorem em_publish_sync_preserves (m : em_manager) (e : Nat) (d : Option Nat)
    (hwf : queuesWF m) (hg : gaugeInv m) :
    queuesWF (em_publish_sync m e d).2.1 ∧ gaugeInv (em_publish_sync m e d).2.1 := by
  obtain ⟨f1, f2, f3, _⟩ := em_publish_sync_frame m e d
  refine ⟨?_, ?_, ?_⟩
  · unfold queuesWF
    rw [f1]
    exact hwf
  · unfold sumInv
    rw [f1, f2]
    exact hg.1
  · rw [f2, f3]
    exact hg.2

/-! ### Claim C1 (corrected) -/

/-- A reachable manager with one pending asynchronous event: one successful
`em_publish_async` on the fresh manager. -/
def mOnePending : em_manager := (em_publish_async em_create 0 none 0 0 none).2

/-- Counterexample to C1 as stated: `em_reset_stats` zeroes
`async_queue_max` while preserving `async_queue_current`, so with one event
still queued the state reached right after a reset has count sum and gauge 1
but high-water mark 0 — `async_queue_current ≤ async_queue_max` fails after
`em_reset_stats`. -/
theorem reset_stats_gauge_cex :
    sumCounts mOnePending.async_queues = 1 ∧
    mOnePending.stats.async_queue_current = 1 ∧
    mOnePending.stats.async_queue_max = 1 ∧
    (em_reset_stats mOnePending).stats.async_queue_current = 1 ∧
    (em_reset_stats mOnePending).stats.async_queue_max = 0 ∧
    ¬((em_reset_stats mOnePending).stats.async_queue_current ≤
        (em_reset_stats mOnePending).stats.async_queue_max) := by
  decide

/-- C1 (amended): the invariant "count sum equals `async_queue_current` and
`async_queue_current ≤ async_queue_max`" holds initially and is preserved by
`em_publish_async`, `em_process_one`, `em_clear_queue`, `em_subscribe`,
`em_unsubscribe` and `em_publish_sync` — but `em_reset_stats` preserves only
the count-sum half: it zeroes `async_queue_max` while keeping
`async_queue_current`, so the inequality can fail right after a reset
(see the counterexample) until the next publish or clear re-establishes it. -/
theorem queue_gauge_invariant (m : em_manager) (hwf : queuesWF m) (hg : gaugeInv m) :
    (queuesWF em_create ∧ gaugeInv em_create) ∧
    (∀ e d n p al, queuesWF (em_publish_async m e d n p al).2 ∧
                   gaugeInv (em_publish_async m e d n p al).2) ∧
    (queuesWF (em_process_one m).2.1 ∧ gaugeInv (em_process_one m).2.1) ∧
    (queuesWF (em_clear_queue m) ∧ gaugeInv (em_clear_queue m)) ∧
    (∀ e c u p, queuesWF (em_subscribe m e c u p).2 ∧
                gaugeInv (em_subscribe m e c u p).2) ∧
    (∀ e c, queuesWF (em_unsubscribe m e c).2 ∧ gaugeInv (em_unsubscribe m e c).2) ∧
    (∀ e d, queuesWF (em_publish_sync m e d).2.1 ∧
            gaugeInv (em_publish_sync m e d).2.1) ∧
    (queuesWF (em_reset_stats m) ∧ sumInv (em_reset_stats m) ∧
      (em_reset_stats m).stats.async_queue_max = 0) := by
  refine ⟨⟨by decide, by decide⟩,
          fun e d n p al => em_publish_async_preserves m e d n p al hwf hg,
          em_process_one_preserves m hwf hg,
          em_clear_queue_preserves m hwf,
          fun e c u p => em_subscribe_preserves m e c u p hwf hg,
          fun e c => em_unsubscribe_preserves m e c hwf hg,
          fun e d => em_publish_sync_preserves m e d hwf hg,
          ⟨hwf.1, hwf.2⟩, ?_, rfl⟩
  unfold sumInv
  exact hg.1

/-- Witness for C1 (amended) at a concrete input: the fresh manager satisfies
both hypotheses, and the clear-queue conjunct applies to it. -/
theorem queue_gauge_invariant_witness :
    (queuesWF em_create ∧ gaugeInv em_create) ∧
    (queuesWF (em_clear_queue em_create) ∧ gaugeInv (em_clear_queue em_create)) :=
  ⟨⟨by decide, by decide⟩,
   (queue_gauge_invariant em_create (by decide) (by decide)).2.2.2.1⟩
